import Mathlib

/-!
# Verification of the epi-quark scoring engine

Shallow embedding of the epi-quark repository: the dispatch layer
(`epiquark/api.py`) is embedded directly from its source; the scoring core
(`scorer.py`: `Score`, `EpiMetrics`, `Timeliness`, `ScoreCalculator`) is not
part of the available sources, so its operations are modelled from the
specification, as marked on each such definition.
-/

/-! ## Timeliness engine: onset-to-detection delay -/

/-- First index of a nonzero entry in a list of counts, if any. -/
def findFirstNonzero : List ℕ → Option ℕ
  | [] => none
  | c :: rest => if c ≠ 0 then some 0 else (findFirstNonzero rest).map (· + 1)

/-- Modelled from the spec: `EpiMetrics._calc_delay` (the implementing
`scorer.py` is absent from the sources; only its tests are present).
The input is one per-(data_label, spatial group) time series, each entry a
pair (case count, binarized signal).  Onset is the first time step with a
nonzero case count (if none, the delay is the length of the series); the
detection index is the first step at or after onset with a nonzero binarized
signal (if none, the delay is the length of the series); otherwise the delay
is detection index minus onset index. -/
def calcDelay (series : List (ℕ × ℕ)) : ℕ :=
  match findFirstNonzero (series.map Prod.fst) with
  | none => series.length
  | some onset =>
    match findFirstNonzero ((series.map Prod.snd).drop onset) with
    | none => series.length
    | some k => k

/-- Modelled from the spec: per-series timeliness, `1 - s/D` when `s ≤ D`,
else `0`, where `D` is the caller-supplied maximum acceptable delay
(`Timeliness.timeliness` in the absent `scorer.py`; the formula is also the
one documented on `epiquark.api.timeliness`). -/
def timelinessValue (s D : ℚ) : ℚ :=
  if s ≤ D then 1 - s / D else 0

/-! ## Input tables and the Score constructor validation -/

/-- A row of the case table: coordinate cell, disease class label, and case
count.  A missing `value` entry is `none`; a present value is a rational so
that negative and fractional entries are representable. -/
structure CaseRow where
  cell : List ℤ
  data_label : String
  value : Option ℚ
deriving DecidableEq

/-- A row of the signal table: coordinate cell, signal class label, and
signal strength. -/
structure SignalRow where
  cell : List ℤ
  signal_label : String
  value : ℚ
deriving DecidableEq

/-- The pandas dtype of the signal `value` column: integer-typed or
floating-point-typed. -/
inductive ValueDType where
  | intType : ValueDType
  | floatType : ValueDType
deriving DecidableEq

/-- A signal table: its rows together with the dtype of its `value`
column (the dtype, not only the numeric range, is part of the validation
contract). -/
structure SignalTable where
  rows : List SignalRow
  valueDtype : ValueDType

/-- The list of cells (coordinate tuples) appearing in the case table. -/
def caseCells (cases : List CaseRow) : List (List ℤ) :=
  cases.map (fun r => r.cell)

/-- Number of signal rows carrying a given cell. -/
def cellCount (signals : SignalTable) (c : List ℤ) : ℕ :=
  (signals.rows.filter (fun r => decide (r.cell = c))).length

/-- Modelled from the spec: the case-table checks of the `Score`
constructor's validator (the implementing `scorer.py` is absent from the
sources).  A missing `value`, a negative `value`, a fractional `value`, or
the reserved label "non-case" in `data_label` each raise an error. -/
def validateCases (cases : List CaseRow) : Except String Unit :=
  if ∃ r ∈ cases, r.value = none then
    .error "case value column has missing entries"
  else if ∃ r ∈ cases, r.value.getD 0 < 0 then
    .error "case value must be a non-negative integer"
  else if ∃ r ∈ cases, (r.value.getD 0).den ≠ 1 then
    .error "case value must be a non-negative integer"
  else if ∃ r ∈ cases, r.data_label = "non-case" then
    .error "data_label must not contain the reserved label non-case"
  else
    .ok ()

/-- Modelled from the spec: the signal-table checks of the `Score`
constructor's validator (the implementing `scorer.py` is absent from the
sources).  Signal cells must be a subset of case cells; the signal value
column must be float-typed with all values in [0,1]; every cell must carry
the same number of signal rows. -/
def validateSignals (cases : List CaseRow) (signals : SignalTable) :
    Except String Unit :=
  if ∃ r ∈ signals.rows, r.cell ∉ caseCells cases then
    .error "signals' coordinates must be a subset of cases' coordinates"
  else if signals.valueDtype ≠ ValueDType.floatType ∨
      ∃ r ∈ signals.rows, r.value < 0 ∨ 1 < r.value then
    .error "'values' in signal DataFrame must be floats between 0 and 1."
  else if ∃ r1 ∈ signals.rows, ∃ r2 ∈ signals.rows,
      cellCount signals r1.cell ≠ cellCount signals r2.cell then
    .error "Each coordinate must contain the same amount of signals."
  else
    .ok ()

/-- The state owned by a successfully constructed scoring engine: the two
validated input tables.  (The derived probability tables the engine builds
from them afterwards are not needed by the properties below.) -/
structure ScoreState where
  cases : List CaseRow
  signals : SignalTable

/-- Modelled from the spec: the `Score` constructor.  All validator checks
run before any derived table is built; on the first failing check an error
is raised and no partial result is returned. -/
def mkScore (cases : List CaseRow) (signals : SignalTable) :
    Except String ScoreState :=
  match validateCases cases with
  | .error e => .error e
  | .ok _ =>
    match validateSignals cases signals with
    | .error e => .error e
    | .ok _ => .ok ⟨cases, signals⟩

/-! ## Threshold-requirement contract (`epiquark/api.py`) -/

/-- Embeds `_ThreshRequired` from `api.py`: whether a metric requires
`p_thresh` and whether it requires `p_hat_thresh`. -/
structure ThreshRequired where
  p_thresh : Bool
  p_hat_thresh : Bool
deriving DecidableEq

/-- Embeds `_ThreshRequired._thresh_text`. -/
def threshText (thresh : Bool) : String :=
  if thresh then "requires" else "must not contain"

/-- Embeds `_ThreshRequired.check_threshs_correct`: succeeds when the
presence pattern of the supplied thresholds matches the requirement pair,
otherwise raises the (metric-name-free) requirement message. -/
def checkThreshsCorrect (req : ThreshRequired) (p_thresh p_hat_thresh : Option ℚ) :
    Except String Unit :=
  if (p_thresh.isSome, p_hat_thresh.isSome) = (req.p_thresh, req.p_hat_thresh) then
    .ok ()
  else
    .error ("This metric " ++ threshText req.p_thresh ++ " p_thresh and "
      ++ threshText req.p_hat_thresh ++ " p_hat_thresh.")

/-- Embeds the `required_treshs` table of `_check_threshs` in `api.py`. -/
def requiredTreshs (metric : String) : Option ThreshRequired :=
  match metric with
  | "f1" => some ⟨true, true⟩
  | "brier" => some ⟨true, false⟩
  | "auc" => some ⟨true, false⟩
  | "sensitivity" => some ⟨true, true⟩
  | "recall" => some ⟨true, true⟩
  | "tpr" => some ⟨true, true⟩
  | "specificity" => some ⟨true, true⟩
  | "tnr" => some ⟨true, true⟩
  | "fpr" => some ⟨true, true⟩
  | "fnr" => some ⟨true, true⟩
  | "precision" => some ⟨true, true⟩
  | "ppv" => some ⟨true, true⟩
  | "npv" => some ⟨true, true⟩
  | "matthews" => some ⟨true, true⟩
  | "r2" => some ⟨false, false⟩
  | "mse" => some ⟨false, false⟩
  | "mae" => some ⟨false, false⟩
  | _ => none

/-- Embeds `_check_threshs` from `api.py`: unknown metric names raise a
KeyError-style message, known ones are checked against their requirement
pair. -/
def checkThreshs (metric : String) (p_thresh p_hat_thresh : Option ℚ) :
    Except String Unit :=
  match requiredTreshs metric with
  | none => .error "This metric is not recognized."
  | some req => checkThreshsCorrect req p_thresh p_hat_thresh

/-! ## Metric dispatch (`epiquark/api.py`) -/

/-- The call signature shared by every metric function in the dispatch
table: (true values, predicted values, sample weights) to a scalar. -/
def MetricFn : Type := List ℚ → List ℚ → List ℚ → ℚ

/-- The raveled 2x2 confusion matrix (tn, fp, fn, tp) returned by
`sklearn.metrics.confusion_matrix(...).ravel()`. -/
structure ConfQuad where
  tn : ℚ
  fp : ℚ
  fn : ℚ
  tp : ℚ

/-- The external sklearn functions `api.py` calls; the dispatch layer is
polymorphic over their behaviour. -/
structure SkExternal where
  f1_score : MetricFn
  brier_score_loss : MetricFn
  matthews_corrcoef : MetricFn
  r2_score : MetricFn
  mean_squared_error : MetricFn
  mean_absolute_error : MetricFn
  confusion_matrix : List ℚ → List ℚ → List ℚ → ConfQuad
  roc_curve : List ℚ → List ℚ → List ℚ → List ℚ × List ℚ
  auc : List ℚ → List ℚ → ℚ

/-- Embeds `_sensitivity` from `api.py`: tp / (tp + fn). -/
def sensitivityFn (sk : SkExternal) : MetricFn := fun t p w =>
  let q := sk.confusion_matrix t p w
  q.tp / (q.tp + q.fn)

/-- Embeds `_specificity` from `api.py`: tn / (tn + fp). -/
def specificityFn (sk : SkExternal) : MetricFn := fun t p w =>
  let q := sk.confusion_matrix t p w
  q.tn / (q.tn + q.fp)

/-- Embeds `_fpr` from `api.py`: fp / (fp + tn). -/
def fprFn (sk : SkExternal) : MetricFn := fun t p w =>
  let q := sk.confusion_matrix t p w
  q.fp / (q.fp + q.tn)

/-- Embeds `_fnr` from `api.py`: fn / (fn + tp). -/
def fnrFn (sk : SkExternal) : MetricFn := fun t p w =>
  let q := sk.confusion_matrix t p w
  q.fn / (q.fn + q.tp)

/-- Embeds `_precision` from `api.py`: tp / (tp + fp). -/
def precisionFn (sk : SkExternal) : MetricFn := fun t p w =>
  let q := sk.confusion_matrix t p w
  q.tp / (q.tp + q.fp)

/-- Embeds `_npv` from `api.py`: tn / (tn + fn). -/
def npvFn (sk : SkExternal) : MetricFn := fun t p w =>
  let q := sk.confusion_matrix t p w
  q.tn / (q.tn + q.fn)

/-- Embeds `_auc` from `api.py`: area under the ROC curve. -/
def aucFn (sk : SkExternal) : MetricFn := fun t p w =>
  let rc := sk.roc_curve t p w
  sk.auc rc.1 rc.2

/-- Embeds the `metrics` dispatch dictionary of `score` in `api.py`. -/
def metricsDispatch (sk : SkExternal) (metric : String) : Option MetricFn :=
  match metric with
  | "f1" => some sk.f1_score
  | "brier" => some sk.brier_score_loss
  | "auc" => some (aucFn sk)
  | "sensitivity" => some (sensitivityFn sk)
  | "recall" => some (sensitivityFn sk)
  | "tpr" => some (sensitivityFn sk)
  | "specificity" => some (specificityFn sk)
  | "tnr" => some (specificityFn sk)
  | "fpr" => some (fprFn sk)
  | "fnr" => some (fnrFn sk)
  | "precision" => some (precisionFn sk)
  | "ppv" => some (precisionFn sk)
  | "npv" => some (npvFn sk)
  | "matthews" => some sk.matthews_corrcoef
  | "r2" => some sk.r2_score
  | "mse" => some sk.mean_squared_error
  | "mae" => some sk.mean_absolute_error
  | _ => none

/-- Embeds `score` from `api.py`, threading an explicit world state to make
the absence of hidden mutable state checkable: `_check_threshs` runs first,
then the `Score` engine is constructed (validation), then the per-label
computation runs.  The numeric work of `ScoreCalculator.calc_score` lives in
the absent `scorer.py` and is abstracted as the `calcFn` argument; the source
holds no module-level mutable state and builds a fresh calculator per call,
so the world state passes through unchanged. -/
def scoreEntry (sk : SkExternal)
    (calcFn : MetricFn → Option ℚ → Option ℚ → ℚ)
    (cases : List CaseRow) (signals : SignalTable)
    (metric : String) (p_thresh p_hat_thresh : Option ℚ)
    (world : ℕ) : Except String ℚ × ℕ :=
  (match checkThreshs metric p_thresh p_hat_thresh with
   | .error e => .error e
   | .ok _ =>
     match mkScore cases signals with
     | .error e => .error e
     | .ok _ =>
       match metricsDispatch sk metric with
       | none => .error "This metric is not recognized."
       | some f => .ok (calcFn f p_thresh p_hat_thresh),
   world)

/-! ## Confusion matrix entry point (`epiquark/api.py`) -/

/-- Embeds the `threshold_true` defaulting of `conf_matrix` in `api.py`:
`if threshold_true is None: threshold_true = 0`. -/
def effThresholdTrue (t : Option ℚ) : ℚ :=
  match t with
  | none => 0
  | some x => x

/-- Embeds the `threshold_pred` defaulting of `conf_matrix` in `api.py`:
`threshold_pred = threshold_pred or 0.5`, which replaces both `None` and the
falsy value `0.0` by `0.5`. -/
def effThresholdPred (t : Option ℚ) : ℚ :=
  match t with
  | none => 1 / 2
  | some x => if x = 0 then 1 / 2 else x

/-- Embeds `conf_matrix` from `api.py`: defaults the two thresholds and
hands them to `ScoreCalculator.calc_score` (abstracted as `calcFn`, since the
implementing `scorer.py` is absent from the sources). -/
def conf_matrix {α : Type} (calcFn : ℚ → ℚ → α)
    (threshold_true threshold_pred : Option ℚ) : α :=
  calcFn (effThresholdTrue threshold_true) (effThresholdPred threshold_pred)

/-! ## Mean-score aggregation -/

/-- Modelled from the spec: `Score.mean_score` combines the per-label scores
into a fixed-size two-element tuple of aggregate statistics (the spec leaves
the exact second aggregate open; it is modelled as a macro-style arithmetic
mean paired with a weighted mean over the per-label scores). -/
def mean_score (scores weights : List ℚ) : ℚ × ℚ :=
  (scores.sum / scores.length,
   (List.zipWith (fun s w => s * w) scores weights).sum / weights.sum)

/-! ## Helper lemmas -/

theorem findFirstNonzero_eq_none_iff (l : List ℕ) :
    findFirstNonzero l = none ↔ ∀ j < l.length, l.getD j 0 = 0 := by
  induction l with
  | nil => simp [findFirstNonzero]
  | cons c rest ih =>
    by_cases hc : c = 0
    · subst hc
      simp only [findFirstNonzero, ne_eq, not_true_eq_false, if_neg, ite_false,
        Option.map_eq_none', not_false_eq_true, if_true]
      rw [ih]
      constructor
      · intro h j hj
        cases j with
        | zero => rfl
        | succ j =>
          simp only [List.length_cons, Nat.succ_lt_succ_iff] at hj
          simpa using h j hj
      · intro h j hj
        have := h (j + 1) (by simpa [Nat.succ_lt_succ_iff] using hj)
        simpa using this
    · simp only [findFirstNonzero, ne_eq, hc, not_false_eq_true, if_true]
      constructor
      · intro h; cases h
      · intro h
        have := h 0 (by simp)
        simp at this
        exact absurd this hc

theorem findFirstNonzero_eq_some_iff (l : List ℕ) (i : ℕ) :
    findFirstNonzero l = some i ↔
      i < l.length ∧ l.getD i 0 ≠ 0 ∧ ∀ j < i, l.getD j 0 = 0 := by
  induction l generalizing i with
  | nil => simp [findFirstNonzero]
  | cons c rest ih =>
    by_cases hc : c = 0
    · subst hc
      simp only [findFirstNonzero, ne_eq, not_true_eq_false, ite_false]
      constructor
      · intro h
        rcases Option.map_eq_some'.mp h with ⟨k, hk, rfl⟩
        rcases (ih k).mp hk with ⟨hlen, hnz, hzero⟩
        refine ⟨by simpa [Nat.succ_lt_succ_iff] using hlen, by simpa using hnz, ?_⟩
        intro j hj
        cases j with
        | zero => rfl
        | succ j =>
          have hj' : j < k := by omega
          simpa using hzero j hj'
      · rintro ⟨hlen, hnz, hzero⟩
        cases i with
        | zero => simp at hnz
        | succ k =>
          have hk : findFirstNonzero rest = some k := by
            refine (ih k).mpr ⟨?_, ?_, ?_⟩
            · simpa [Nat.succ_lt_succ_iff] using hlen
            · simpa using hnz
            · intro j hj
              have := hzero (j + 1) (by omega)
              simpa using this
          simp [hk]
    · simp only [findFirstNonzero, ne_eq, hc, not_false_eq_true, if_true]
      constructor
      · intro h
        cases h
        exact ⟨by simp, by simpa using hc, by intro j hj; omega⟩
      · rintro ⟨hlen, hnz, hzero⟩
        cases i with
        | zero => rfl
        | succ k =>
          have := hzero 0 (by omega)
          simp at this
          exact absurd this hc

theorem getD_drop_eq (l : List ℕ) (m k : ℕ) :
    (l.drop m).getD k 0 = l.getD (m + k) 0 := by
  induction l generalizing m with
  | nil => simp
  | cons c rest ih =>
    cases m with
    | zero => simp
    | succ m =>
      rw [show m + 1 + k = (m + k) + 1 by omega]
      simp only [List.drop_succ_cons, List.getD_cons_succ]
      exact ih m

theorem mkScore_ok_elim (cases : List CaseRow) (signals : SignalTable)
    (s : ScoreState) (h : mkScore cases signals = .ok s) :
    validateCases cases = .ok () ∧ validateSignals cases signals = .ok () := by
  unfold mkScore at h
  cases hv : validateCases cases with
  | error e => rw [hv] at h; simp at h
  | ok u =>
    cases u
    rw [hv] at h
    cases hw : validateSignals cases signals with
    | error e => rw [hw] at h; simp at h
    | ok v => cases v; exact ⟨rfl, rfl⟩

theorem validateCases_ne_ok_of_bad (cases : List CaseRow)
    (hbad : (∃ r ∈ cases, r.value = none)
      ∨ (∃ r ∈ cases, ∃ q, r.value = some q ∧ q < 0)
      ∨ (∃ r ∈ cases, ∃ q, r.value = some q ∧ q.den ≠ 1)
      ∨ (∃ r ∈ cases, r.data_label = "non-case")) :
    validateCases cases ≠ .ok () := by
  intro hok
  unfold validateCases at hok
  by_cases h1 : ∃ r ∈ cases, r.value = none
  · rw [if_pos h1] at hok; simp at hok
  rw [if_neg h1] at hok
  by_cases h2 : ∃ r ∈ cases, r.value.getD 0 < 0
  · rw [if_pos h2] at hok; simp at hok
  rw [if_neg h2] at hok
  by_cases h3 : ∃ r ∈ cases, (r.value.getD 0).den ≠ 1
  · rw [if_pos h3] at hok; simp at hok
  rw [if_neg h3] at hok
  by_cases h4 : ∃ r ∈ cases, r.data_label = "non-case"
  · rw [if_pos h4] at hok; simp at hok
  rcases hbad with hb | hb | hb | hb
  · exact h1 hb
  · rcases hb with ⟨r, hr, q, hq, hlt⟩
    exact h2 ⟨r, hr, by simpa [hq] using hlt⟩
  · rcases hb with ⟨r, hr, q, hq, hden⟩
    exact h3 ⟨r, hr, by simpa [hq] using hden⟩
  · exact h4 hb

/-! ## Claim theorems -/

/-- C1: for every per-(data_label, spatial group) time series of case counts
and binarized signals, the delay computed by `EpiMetrics._calc_delay` equals
the first index at or after the onset index (the first index where the case
series is nonzero) at which the binarized signal is nonzero, minus the onset
index; if the case series has no nonzero entry, or no nonzero signal occurs
at or after onset, the delay equals the length of the series; in particular,
for cases=[0,1,0] and signals=[1,0,0] the delay is 3 (a signal strictly
before onset does not count as a detection). -/
theorem calc_delay_spec (series : List (ℕ × ℕ)) (onset det : ℕ) :
    ((∀ j < series.length, (series.map Prod.fst).getD j 0 = 0) →
      calcDelay series = series.length)
    ∧ ((onset < series.length ∧ (series.map Prod.fst).getD onset 0 ≠ 0 ∧
        ∀ j < onset, (series.map Prod.fst).getD j 0 = 0) →
       ((∀ j < series.length, onset ≤ j → (series.map Prod.snd).getD j 0 = 0) →
          calcDelay series = series.length)
       ∧ (onset ≤ det → det < series.length →
          (series.map Prod.snd).getD det 0 ≠ 0 →
          (∀ j < det, onset ≤ j → (series.map Prod.snd).getD j 0 = 0) →
          calcDelay series = det - onset))
    ∧ calcDelay [(0, 1), (1, 0), (0, 0)] = 3 := by
  refine ⟨?_, ?_, by decide⟩
  · intro h
    have hn : findFirstNonzero (series.map Prod.fst) = none := by
      rw [findFirstNonzero_eq_none_iff]
      intro j hj
      exact h j (by simpa using hj)
    simp [calcDelay, hn]
  · rintro ⟨h1, h2, h3⟩
    have ho : findFirstNonzero (series.map Prod.fst) = some onset := by
      rw [findFirstNonzero_eq_some_iff]
      exact ⟨by simpa using h1, h2, h3⟩
    constructor
    · intro hs
      have hn : findFirstNonzero ((series.map Prod.snd).drop onset) = none := by
        rw [findFirstNonzero_eq_none_iff]
        intro j hj
        rw [getD_drop_eq]
        have hjlt : onset + j < series.length := by
          simp [List.length_drop] at hj
          omega
        exact hs (onset + j) hjlt (by omega)
      simp [calcDelay, ho, hn]
    · intro hod hdl hnz hzero
      have hd : findFirstNonzero ((series.map Prod.snd).drop onset) =
          some (det - onset) := by
        rw [findFirstNonzero_eq_some_iff]
        refine ⟨?_, ?_, ?_⟩
        · simp [List.length_drop]; omega
        · rw [getD_drop_eq, show onset + (det - onset) = det by omega]
          exact hnz
        · intro j hj
          rw [getD_drop_eq]
          exact hzero (onset + j) (by omega) (by omega)
      simp [calcDelay, ho, hd]

/-- Witness for C1: at the concrete series cases=[1,0,0], signals=[0,0,1]
(onset 0, detection 2) the theorem yields delay 2, matching the tests. -/
theorem calc_delay_spec_witness :
    calcDelay [(1, 0), (0, 0), (0, 1)] = 2 :=
  ((calc_delay_spec [(1, 0), (0, 0), (0, 1)] 0 2).2.1 (by decide)).2
    (by decide) (by decide) (by decide) (by decide)

/-- C2: for every delay s ≥ 0 and caller-supplied maximum acceptable delay
D > 0, the per-series timeliness equals 1 - s/D when s ≤ D and 0 otherwise;
it is monotonically non-increasing in s for fixed D, equals 1 exactly when
s = 0, equals 0 whenever s > D, and always lies in [0,1]. -/
theorem timeliness_value_spec (s D : ℚ) (hs : 0 ≤ s) (hD : 0 < D) :
    ((s ≤ D → timelinessValue s D = 1 - s / D)
      ∧ (D < s → timelinessValue s D = 0))
    ∧ (∀ s2, s ≤ s2 → timelinessValue s2 D ≤ timelinessValue s D)
    ∧ (timelinessValue s D = 1 ↔ s = 0)
    ∧ (0 ≤ timelinessValue s D ∧ timelinessValue s D ≤ 1) := by
  have range : ∀ x : ℚ, 0 ≤ x → 0 ≤ timelinessValue x D ∧ timelinessValue x D ≤ 1 := by
    intro x hx
    unfold timelinessValue
    by_cases h : x ≤ D
    · rw [if_pos h]
      have hdiv1 : x / D ≤ 1 := (div_le_one hD).mpr h
      have hdiv0 : 0 ≤ x / D := div_nonneg hx hD.le
      constructor <;> linarith
    · rw [if_neg h]
      norm_num
  refine ⟨⟨?_, ?_⟩, ?_, ?_, range s hs⟩
  · intro h
    rw [timelinessValue, if_pos h]
  · intro h
    rw [timelinessValue, if_neg (not_le.mpr h)]
  · intro s2 hs2
    by_cases h2 : s2 ≤ D
    · have h1 : s ≤ D := le_trans hs2 h2
      rw [timelinessValue, if_pos h2, timelinessValue, if_pos h1]
      have : s / D ≤ s2 / D := (div_le_div_iff_of_pos_right hD).mpr hs2
      linarith
    · rw [timelinessValue, if_neg h2]
      exact (range s hs).1
  · constructor
    · intro h
      by_cases hle : s ≤ D
      · rw [timelinessValue, if_pos hle] at h
        have hq : s / D = 0 := by linarith
        rcases div_eq_zero_iff.mp hq with h0 | h0
        · exact h0
        · exact absurd h0 (ne_of_gt hD)
      · rw [timelinessValue, if_neg hle] at h
        norm_num at h
    · intro h
      subst h
      rw [timelinessValue, if_pos hD.le]
      simp

/-- Witness for C2: at delay 1 and maximum delay 2, the timeliness lies in
[0,1]. -/
theorem timeliness_value_spec_witness :
    0 ≤ timelinessValue 1 2 ∧ timelinessValue 1 2 ≤ 1 :=
  (timeliness_value_spec 1 2 (by norm_num) (by norm_num)).2.2.2

/-- C3: for every case table in which the value column has a missing entry,
or contains a negative value, or contains a fractional value, or whose
data_label column contains the reserved non-case label, constructing the
scoring engine raises an error before any derived table is built and no
partial result is returned. -/
theorem score_rejects_bad_cases (cases : List CaseRow) (signals : SignalTable) :
    ((∃ r ∈ cases, r.value = none) →
      ∃ e, mkScore cases signals = .error e)
    ∧ ((∃ r ∈ cases, ∃ q, r.value = some q ∧ q < 0) →
      ∃ e, mkScore cases signals = .error e)
    ∧ ((∃ r ∈ cases, ∃ q, r.value = some q ∧ q.den ≠ 1) →
      ∃ e, mkScore cases signals = .error e)
    ∧ ((∃ r ∈ cases, r.data_label = "non-case") →
      ∃ e, mkScore cases signals = .error e) := by
  have key : validateCases cases ≠ .ok () →
      ∃ e, mkScore cases signals = .error e := by
    intro hne
    cases h : mkScore cases signals with
    | error e => exact ⟨e, rfl⟩
    | ok s => exact absurd (mkScore_ok_elim cases signals s h).1 hne
  exact ⟨fun hb => key (validateCases_ne_ok_of_bad cases (Or.inl hb)),
    fun hb => key (validateCases_ne_ok_of_bad cases (Or.inr (Or.inl hb))),
    fun hb => key (validateCases_ne_ok_of_bad cases (Or.inr (Or.inr (Or.inl hb)))),
    fun hb => key (validateCases_ne_ok_of_bad cases (Or.inr (Or.inr (Or.inr hb))))⟩

/-- Witness for C3: a case table whose single row has a missing value is
rejected. -/
theorem score_rejects_bad_cases_witness :
    ∃ e, mkScore [⟨[0], "endemic", none⟩] ⟨[], ValueDType.floatType⟩ =
      .error e :=
  (score_rejects_bad_cases _ _).1 ⟨⟨[0], "endemic", none⟩, by simp, rfl⟩

/-- C5: for every signal table containing a cell whose coordinates are not a
subset of the case table's cell coordinates, constructing the scoring engine
raises an error stating that signals' coordinates must be a subset of cases'
coordinates. -/
theorem score_rejects_coord_superset (cases : List CaseRow)
    (signals : SignalTable)
    (hcases : validateCases cases = .ok ())
    (hbad : ∃ r ∈ signals.rows, r.cell ∉ caseCells cases) :
    mkScore cases signals =
      .error "signals' coordinates must be a subset of cases' coordinates" := by
  have hs : validateSignals cases signals =
      .error "signals' coordinates must be a subset of cases' coordinates" := by
    unfold validateSignals
    rw [if_pos hbad]
  simp [mkScore, hcases, hs]

/-- Witness for C5: a signal row at cell [6], absent from the case table's
cells, is rejected with the coordinate-subset message. -/
theorem score_rejects_coord_superset_witness :
    mkScore [⟨[0], "endemic", some 1⟩]
        ⟨[⟨[6], "endemic", 1/2⟩], ValueDType.floatType⟩ =
      .error "signals' coordinates must be a subset of cases' coordinates" :=
  score_rejects_coord_superset _ _ (by rfl)
    ⟨⟨[6], "endemic", 1/2⟩, by simp, by simp [caseCells]⟩

/-- C4: for every signal table whose value column is not strictly
floating-point typed (including an integer-typed column all of whose values
lie inside [0,1]) or that contains a value outside [0,1], constructing the
scoring engine raises an error whose message matches "'values' in signal
DataFrame must be floats between 0 and 1"; dtype, not only numeric range, is
part of the contract. -/
theorem score_rejects_nonfloat_signals (cases : List CaseRow)
    (signals : SignalTable)
    (hcases : validateCases cases = .ok ())
    (hcoord : ∀ r ∈ signals.rows, r.cell ∈ caseCells cases)
    (hbad : signals.valueDtype ≠ ValueDType.floatType ∨
      ∃ r ∈ signals.rows, r.value < 0 ∨ 1 < r.value) :
    mkScore cases signals =
      .error "'values' in signal DataFrame must be floats between 0 and 1." := by
  have hnc : ¬∃ r ∈ signals.rows, r.cell ∉ caseCells cases := by
    push_neg
    exact hcoord
  have hs : validateSignals cases signals =
      .error "'values' in signal DataFrame must be floats between 0 and 1." := by
    unfold validateSignals
    rw [if_neg hnc, if_pos hbad]
  simp [mkScore, hcases, hs]

/-- Witness for C4: an integer-typed signal value column whose only value 1
lies inside [0,1] is still rejected with the floats-between-0-and-1
message. -/
theorem score_rejects_nonfloat_signals_witness :
    mkScore [⟨[0], "endemic", some 1⟩]
        ⟨[⟨[0], "endemic", 1⟩], ValueDType.intType⟩ =
      .error "'values' in signal DataFrame must be floats between 0 and 1." :=
  score_rejects_nonfloat_signals _ _ (by rfl)
    (by intro r hr; simp at hr; simp [hr, caseCells])
    (Or.inl (by simp))

/-- C6 counterexample: with metric "f1" and no thresholds supplied, an error
is raised (correctly), but its message is identical to the one raised for
the distinct metric "sensitivity" and does not contain the substring "f1":
the message does not reference the exact metric name. -/
theorem check_threshs_msg_lacks_metric_name :
    checkThreshs "f1" none none = checkThreshs "sensitivity" none none
    ∧ ∃ e, checkThreshs "f1" none none = Except.error e
        ∧ ¬ List.IsInfix "f1".toList e.toList := by
  refine ⟨rfl, "This metric requires p_thresh and requires p_hat_thresh.",
    rfl, by decide⟩

/-- C6 (amended): for every recognized metric name, `_check_threshs` raises
an error before any probability computation if and only if the presence
pattern of the supplied thresholds differs from that metric's fixed
requirement pair; the raised message states the requirement (requires /
must not contain, for each threshold) but does not name the metric. -/
theorem check_threshs_amended (metric : String) (req : ThreshRequired)
    (hreq : requiredTreshs metric = some req) (p ph : Option ℚ) :
    (checkThreshs metric p ph = .ok () ↔
      (p.isSome, ph.isSome) = (req.p_thresh, req.p_hat_thresh))
    ∧ ∀ e, checkThreshs metric p ph = .error e →
        e = "This metric " ++ threshText req.p_thresh ++ " p_thresh and "
          ++ threshText req.p_hat_thresh ++ " p_hat_thresh." := by
  have hck : checkThreshs metric p ph = checkThreshsCorrect req p ph := by
    unfold checkThreshs
    rw [hreq]
  rw [hck]
  unfold checkThreshsCorrect
  by_cases h : (p.isSome, ph.isSome) = (req.p_thresh, req.p_hat_thresh)
  · rw [if_pos h]
    exact ⟨⟨fun _ => h, fun _ => rfl⟩, fun e he => absurd he (by simp)⟩
  · rw [if_neg h]
    refine ⟨⟨fun hh => absurd hh (by simp), fun hh => absurd hh h⟩, ?_⟩
    intro e he
    injection he with h1
    exact h1.symm

/-- Witness for C6 (amended): the regression-style metric "r2" with no
thresholds supplied passes the check. -/
theorem check_threshs_amended_witness :
    checkThreshs "r2" (none : Option ℚ) none = .ok () :=
  (check_threshs_amended "r2" ⟨false, false⟩ rfl none none).1.mpr rfl

theorem zipWith_mul_const_sum (c : ℚ) :
    ∀ (scores weights : List ℚ), scores.length = weights.length →
      (∀ x ∈ scores, x = c) →
      (List.zipWith (fun s w => s * w) scores weights).sum = c * weights.sum
  | [], [], _, _ => by simp
  | [], w :: ws, h, _ => by simp at h
  | s :: ss, [], h, _ => by simp at h
  | s :: ss, w :: ws, h, hc => by
    simp only [List.zipWith_cons_cons, List.sum_cons]
    have hs : s = c := hc s (by simp)
    have hrec := zipWith_mul_const_sum c ss ws (by simpa using h)
      (fun x hx => hc x (by simp [hx]))
    rw [hs, hrec]
    ring

/-- C7: the overall mean-score aggregation returns a fixed-size two-element
tuple of aggregate statistics over the per-label scores (a macro-style mean
and a complementary weighted aggregate), not a single scalar and not a
per-label mapping; on a constant score profile both aggregates return that
constant. -/
theorem mean_score_spec (c : ℚ) (scores weights : List ℚ)
    (hne : scores ≠ []) (hlen : scores.length = weights.length)
    (hconst : ∀ x ∈ scores, x = c) (hw : weights.sum ≠ 0) :
    (mean_score scores weights).1 = scores.sum / scores.length
    ∧ (mean_score scores weights).2 =
        (List.zipWith (fun s w => s * w) scores weights).sum / weights.sum
    ∧ mean_score scores weights = (c, c) := by
  refine ⟨rfl, rfl, ?_⟩
  have hL : (scores.length : ℚ) ≠ 0 := by
    have h0 : scores.length ≠ 0 := by
      simpa [List.length_eq_zero] using hne
    exact_mod_cast h0
  have h1 : scores.sum = c * scores.length := by
    rw [List.sum_eq_card_nsmul scores c hconst]
    simp [nsmul_eq_mul]
    ring
  have h2 := zipWith_mul_const_sum c scores weights hlen hconst
  simp only [mean_score, Prod.mk.injEq]
  constructor
  · rw [h1, mul_div_assoc, div_self hL, mul_one]
  · rw [h2, mul_div_assoc, div_self hw, mul_one]

/-- Witness for C7: the constant score profile [1/2, 1/2] with weights
[1, 3] aggregates to the pair (1/2, 1/2). -/
theorem mean_score_spec_witness :
    mean_score [1/2, 1/2] [1, 3] = (1/2, 1/2) :=
  (mean_score_spec (1/2) [1/2, 1/2] [1, 3] (by simp) rfl
    (by intro x hx; simpa using hx) (by norm_num [List.sum_cons, List.sum_nil])).2.2

/-- C8: for fixed inputs and configuration, two sequential invocations of
the score entry point return identical results and the threaded world state
is unchanged: the computation is a deterministic function of its arguments
with no hidden mutable state persisting across calls. -/
theorem score_entry_deterministic (sk : SkExternal)
    (calcFn : MetricFn → Option ℚ → Option ℚ → ℚ)
    (cases : List CaseRow) (signals : SignalTable)
    (metric : String) (p_thresh p_hat_thresh : Option ℚ) (w1 : ℕ) :
    (scoreEntry sk calcFn cases signals metric p_thresh p_hat_thresh
        (scoreEntry sk calcFn cases signals metric p_thresh p_hat_thresh w1).2).1 =
      (scoreEntry sk calcFn cases signals metric p_thresh p_hat_thresh w1).1
    ∧ (scoreEntry sk calcFn cases signals metric p_thresh p_hat_thresh w1).2 = w1 :=
  ⟨rfl, rfl⟩

/-- C9: in `conf_matrix`, a `threshold_true` of None is replaced by 0, and
`threshold_pred` is replaced by 0.5 whenever it is None or 0.0 (the
replacement tests falsiness, not None-ness): `conf_matrix` called with
`threshold_pred = 0.0` computes the same result as with
`threshold_pred = 0.5`. -/
theorem conf_matrix_falsy_threshold {α : Type} (calcFn : ℚ → ℚ → α)
    (threshold_true : Option ℚ) :
    conf_matrix calcFn threshold_true (some 0) =
        conf_matrix calcFn threshold_true (some (1/2))
    ∧ effThresholdTrue none = 0
    ∧ effThresholdPred none = 1/2
    ∧ effThresholdPred (some 0) = 1/2 := by
  refine ⟨?_, rfl, rfl, ?_⟩
  · unfold conf_matrix
    norm_num [effThresholdPred]
  · norm_num [effThresholdPred]

/-- C10: the score operation returns identical results for the metric names
"sensitivity", "recall" and "tpr" (all dispatch to the same function),
identical results for "specificity" and "tnr", and identical results for
"precision" and "ppv"; the aliased names also share identical
threshold-requirement pairs. -/
theorem metric_aliases_equivalent (sk : SkExternal)
    (calcFn : MetricFn → Option ℚ → Option ℚ → ℚ)
    (cases : List CaseRow) (signals : SignalTable)
    (p_thresh p_hat_thresh : Option ℚ) (w : ℕ) :
    (metricsDispatch sk "sensitivity" = metricsDispatch sk "recall"
      ∧ metricsDispatch sk "sensitivity" = metricsDispatch sk "tpr"
      ∧ metricsDispatch sk "specificity" = metricsDispatch sk "tnr"
      ∧ metricsDispatch sk "precision" = metricsDispatch sk "ppv")
    ∧ (requiredTreshs "sensitivity" = requiredTreshs "recall"
      ∧ requiredTreshs "sensitivity" = requiredTreshs "tpr"
      ∧ requiredTreshs "specificity" = requiredTreshs "tnr"
      ∧ requiredTreshs "precision" = requiredTreshs "ppv")
    ∧ (scoreEntry sk calcFn cases signals "sensitivity" p_thresh p_hat_thresh w =
        scoreEntry sk calcFn cases signals "recall" p_thresh p_hat_thresh w
      ∧ scoreEntry sk calcFn cases signals "sensitivity" p_thresh p_hat_thresh w =
        scoreEntry sk calcFn cases signals "tpr" p_thresh p_hat_thresh w
      ∧ scoreEntry sk calcFn cases signals "specificity" p_thresh p_hat_thresh w =
        scoreEntry sk calcFn cases signals "tnr" p_thresh p_hat_thresh w
      ∧ scoreEntry sk calcFn cases signals "precision" p_thresh p_hat_thresh w =
        scoreEntry sk calcFn cases signals "ppv" p_thresh p_hat_thresh w) :=
  ⟨⟨rfl, rfl, rfl, rfl⟩, ⟨rfl, rfl, rfl, rfl⟩, rfl, rfl, rfl, rfl⟩
